import Mathlib

/-!
# Shallow embedding of `@smonn/postgres-migrate` (src/lib/index.js)

A forward-only PostgreSQL migration engine.  We embed the library's
operations as pure Lean functions:

* the filesystem is a pair of partial maps (directory listings and file
  contents); `none` models an I/O error (ENOENT, stream error);
* the SHA-256 digest of `computeChecksum` is an abstract parameter
  `hash : String → String` applied to a file's content;
* the database is an explicit `DbState`; a `sql.begin` transaction that
  throws is modelled by returning the *pre-transaction* state (rollback);
* script execution (`sql.file`) succeeds or fails according to a
  parameter `execOk : String → Bool` on the script's path; the scripts
  that finished without error inside the (possibly rolled-back)
  transaction are reported in a separate `ranScripts` log;
* string primitives (split, trim, suffix test, ordering) are spelled out
  as structural recursion over character lists, mirroring the JavaScript
  and SQL semantics the source relies on.
-/

/-! ## String primitives -/

/-- JavaScript's `\s` character class (ECMA-262 WhiteSpace ∪
LineTerminator), by code point. -/
def jsWhitespace (c : Char) : Bool :=
  decide (c.toNat ∈ [9, 10, 11, 12, 13, 32, 160, 5760, 8192, 8193, 8194, 8195, 8196,
    8197, 8198, 8199, 8200, 8201, 8202, 8232, 8233, 8239, 8287, 12288, 65279])

/-- Lexicographic code-point order on character lists: the order used by
`ORDER BY name ASC` (C collation) on the ledger's text column. -/
def charListLE : List Char → List Char → Bool
  | [], _ => true
  | _ :: _, [] => false
  | a :: as, b :: bs =>
    if a.toNat < b.toNat then true
    else if b.toNat < a.toNat then false
    else charListLE as bs

/-- `a ≤ b` on strings, by code points. -/
def strLE (a b : String) : Bool := charListLE a.toList b.toList

/-- `s.endsWith(t)`. -/
def strEndsWith (s t : String) : Bool := t.toList.isSuffixOf s.toList

/-- `s.startsWith(t)`. -/
def strStartsWith (s t : String) : Bool := t.toList.isPrefixOf s.toList

/-- `String.prototype.split` with a one-character separator. -/
def splitChar (sep : Char) : List Char → List (List Char)
  | [] => [[]]
  | c :: rest =>
    if c == sep then [] :: splitChar sep rest
    else
      match splitChar sep rest with
      | [] => [[c]]
      | h :: t => (c :: h) :: t

/-- `String.prototype.trim`: strip leading and trailing whitespace. -/
def trimChars (l : List Char) : List Char :=
  ((l.dropWhile jsWhitespace).reverse.dropWhile jsWhitespace).reverse

/-- `path.join(a, b)` for a simple directory/file pair. -/
def pathJoin (a b : String) : String := a ++ "/" ++ b

/-- `path.resolve(p)` against a current working directory `cwd`:
an already-absolute path is kept, a relative one is joined to `cwd`. -/
def pathResolve (cwd p : String) : String :=
  if strStartsWith p "/" then p else pathJoin cwd p

/-! ## Data model -/

/-- A row of the `__migrations` ledger table (`applied_at` is defaulted by
the database and plays no role in the claims, so it is omitted). -/
structure Migration where
  name : String
  checksum : String
  round : Nat
deriving Repr, DecidableEq

/-- An entry of the on-disk migration catalog, as produced by
`getMigrationFiles` (src/lib/index.js lines 199-215). -/
structure MigrationFile where
  name : String
  path : String
  checksum : String
deriving Repr, DecidableEq

/-- The filesystem: `listing` is `fs.readdir` (directory → entries, `none`
= error), `content` is the readable content of a file (`none` = read
error, which makes `computeChecksum` reject). -/
structure FileSys where
  listing : String → Option (List String)
  content : String → Option String

/-- Errors that `applyMigrations` can catch (src/lib/index.js line 92). -/
inductive ApplyError where
  /-- `fs.readdir` rejected (directory cannot be listed). -/
  | readdirFail (dir : String)
  /-- the checksum read stream errored for a file. -/
  | fileReadFail (path : String)
  /-- `migrationFilesLookup[migration.name]` was `undefined` and reading
  `.checksum` on it threw a `TypeError` (line 74). -/
  | typeError (name : String)
  /-- the explicit `Checksum mismatch for migration "..."` error (line 75). -/
  | checksumMismatch (name : String)
  /-- `sql.file(migration.path)` failed (invalid SQL etc., line 224). -/
  | execFail (path : String)
deriving Repr, DecidableEq

/-! ## MigrationFileCatalog -/

/-- The loop body of `getMigrationFiles` over the entries returned by
`readdir`: keep files ending in `.sql`, pairing each with its path and
checksum; a failing checksum read aborts the whole call. -/
def getMigrationFilesFrom (hash : String → String) (fs : FileSys) (baseDir : String) :
    List String → Except ApplyError (List MigrationFile)
  | [] => .ok []
  | f :: rest =>
    if strEndsWith f ".sql" then
      match fs.content (pathJoin baseDir f) with
      | none => .error (.fileReadFail (pathJoin baseDir f))
      | some c =>
        match getMigrationFilesFrom hash fs baseDir rest with
        | .error e => .error e
        | .ok ms => .ok (⟨f, pathJoin baseDir f, hash c⟩ :: ms)
    else getMigrationFilesFrom hash fs baseDir rest

/-- `getMigrationFiles(baseDir)` (src/lib/index.js lines 199-215): list
the directory *as given* (the source performs no `path.resolve` here) and
collect every `.sql` entry with its checksum, in listing order. -/
def getMigrationFiles (hash : String → String) (fs : FileSys) (baseDir : String) :
    Except ApplyError (List MigrationFile) :=
  match fs.listing baseDir with
  | none => .error (.readdirFail baseDir)
  | some files => getMigrationFilesFrom hash fs baseDir files

/-- What the spec's words for the catalog read describe instead
(spec §4.2: "Directory is resolved to an absolute path before use"):
resolve `baseDir` against the working directory *before* listing.
Modelled from the spec, for comparison with `getMigrationFiles`. -/
def getMigrationFilesResolved (hash : String → String) (fs : FileSys)
    (cwd baseDir : String) : Except ApplyError (List MigrationFile) :=
  getMigrationFiles hash fs (pathResolve cwd baseDir)

/-! ## MigrationLedger -/

/-- Indexing `Object.fromEntries(files.map(f => [f.name, f]))[n]`:
the *last* entry with key `n` wins, `none` when absent. -/
def jsLookup (files : List MigrationFile) (n : String) : Option MigrationFile :=
  files.reverse.find? (fun f => f.name == n)

/-- The `ORDER BY round ASC, name ASC` relation of `getMigrations`
(src/lib/index.js lines 179-184). -/
def migR (a b : Migration) : Prop :=
  a.round < b.round ∨ (a.round = b.round ∧ strLE a.name b.name = true)

instance (a b : Migration) : Decidable (migR a b) :=
  inferInstanceAs (Decidable (a.round < b.round ∨ (a.round = b.round ∧ strLE a.name b.name = true)))

/-- `SELECT * FROM __migrations ORDER BY round ASC, name ASC`: the ledger
rows sorted by `(round, name)`. -/
def sortMigrations (l : List Migration) : List Migration :=
  List.insertionSort migR l

/-- `migrations.at(-1)?.round ?? 0` (src/lib/index.js lines 67-68). -/
def lastRound : List Migration → Nat
  | [] => 0
  | [m] => m.round
  | _ :: m :: rest => lastRound (m :: rest)

/-- The maximum `round` present in a list of ledger rows (`0` when empty);
used to state the round-numbering claims. -/
def maxRound : List Migration → Nat
  | [] => 0
  | m :: rest => max m.round (maxRound rest)

/-! ## ApplyCoordinator -/

/-- The checksum-verification loop (src/lib/index.js lines 72-79): for
each applied migration in ledger order, look its name up in the catalog
— an absent name makes `migrationFile.checksum` throw a `TypeError` —
and fail on the first differing checksum. -/
def checksumCheck (files : List MigrationFile) : List Migration → Except ApplyError Unit
  | [] => .ok ()
  | m :: rest =>
    match jsLookup files m.name with
    | none => .error (.typeError m.name)
    | some f =>
      if m.checksum ≠ f.checksum then .error (.checksumMismatch m.name)
      else checksumCheck files rest

/-- `migrationFiles.filter(m => !migrationsLookup[m.name])`
(src/lib/index.js lines 62-64): catalog entries not yet in the ledger,
in catalog order. -/
def pendingOf (files : List MigrationFile) (migrations : List Migration) :
    List MigrationFile :=
  files.filter (fun f => !(migrations.any (fun m => m.name == f.name)))

/-- The database: schema search path and user (read by `resetDatabase`),
the user tables as `(schemaname, tablename)` pairs, and the
`__migrations` ledger — `none` when the table does not exist, otherwise
its rows in insertion order.  `ledgerSchema` records which schema the
ledger table lives in (its `pg_tables` row is modelled by this field
rather than by an entry of `tables`). -/
structure DbState where
  searchPath : String
  user : String
  tables : List (String × String)
  ledger : Option (List Migration)
  ledgerSchema : String
deriving Repr, DecidableEq

/-- `search_path` splitting of `resetDatabase` (src/lib/index.js lines
127-135): split on commas, trim, and replace the `"$user"` placeholder
by the current database user. -/
def resolveSchemas (searchPath user : String) : List String :=
  (splitChar ',' searchPath.toList).map fun s =>
    let t := String.mk (trimChars s)
    if t = "\"$user\"" then user else t

/-- The schema an unqualified `CREATE TABLE` lands in: the first schema
of the resolved search path. -/
def firstSchema (db : DbState) : String :=
  (resolveSchemas db.searchPath db.user).headD "public"

/-- `CREATE TABLE IF NOT EXISTS __migrations (...)`
(src/lib/index.js lines 163-172): create the ledger, empty, if absent. -/
def ensureLedger (db : DbState) : DbState :=
  match db.ledger with
  | some _ => db
  | none => { db with ledger := some [], ledgerSchema := firstSchema db }

/-- One ledger row inserted by `applyMigration` (src/lib/index.js 225-228). -/
def mkEntry (round : Nat) (f : MigrationFile) : Migration :=
  ⟨f.name, f.checksum, round⟩

/-- The `for (const migration of pendingMigrations)` loop
(src/lib/index.js lines 82-84 and 223-229): run each pending script
(`sql.file`), then insert its ledger row with the given round.  The
`List String` accumulator logs the paths of scripts that completed
without error; on a script failure the error and the log so far are
returned (the transaction's rollback is applied by the caller). -/
def runPending (execOk : String → Bool) (round : Nat) :
    List MigrationFile → DbState → List String →
    Except (ApplyError × List String) (DbState × List String)
  | [], db, log => .ok (db, log)
  | f :: rest, db, log =>
    if execOk f.path then
      runPending execOk round rest
        { db with ledger := some (db.ledger.getD [] ++ [mkEntry round f]) }
        (log ++ [f.path])
    else .error (.execFail f.path, log)

/-- The `sql.begin("ISOLATION LEVEL SERIALIZABLE", ...)` transaction body
of `applyMigrations` (src/lib/index.js lines 51-87): ensure and lock the
ledger (the lock is a no-op in this single-process model), read it in
`(round, name)` order, compute the pending set and the new round, verify
checksums, run the pending scripts, and return their count. -/
def applyTxn (execOk : String → Bool) (files : List MigrationFile) (db : DbState) :
    Except (ApplyError × List String) (Nat × DbState × List String) :=
  let db1 := ensureLedger db
  let migrations := sortMigrations (db1.ledger.getD [])
  let pending := pendingOf files migrations
  let round := lastRound migrations + 1
  match checksumCheck files migrations with
  | .error e => .error (e, [])
  | .ok _ =>
    match runPending execOk round pending db1 [] with
    | .error el => .error el
    | .ok (db2, log) => .ok (pending.length, db2, log)

/-- The observable outcome of one `applyMigrations` call: the returned
boolean, the database afterwards, the count printed by
`console.log("Applied", ...)` on success, the error reported by
`console.error("Failed", ...)` on failure, and the scripts that ran to
completion inside the transaction (even if it was rolled back). -/
structure ApplyOutcome where
  ok : Bool
  db : DbState
  logged : Option Nat
  errMsg : Option ApplyError
  ranScripts : List String
deriving Repr, DecidableEq

/-- `applyMigrations(sql, baseDir)` (src/lib/index.js lines 43-96): read
the catalog, run the transaction, return `true` on success and `false`
on any caught error; a thrown error rolls the whole transaction back, so
the database reverts to its pre-call state. -/
def applyMigrations (hash : String → String) (execOk : String → Bool)
    (fs : FileSys) (baseDir : String) (db : DbState) : ApplyOutcome :=
  match getMigrationFiles hash fs baseDir with
  | .error e => ⟨false, db, none, some e, []⟩
  | .ok files =>
    match applyTxn execOk files db with
    | .error (e, log) => ⟨false, db, none, some e, log⟩
    | .ok (n, db2, log) => ⟨true, db2, some n, none, log⟩

/-! ## ResetCoordinator -/

/-- The drop transaction of `resetDatabase` (src/lib/index.js lines
118-147): read `search_path` and the current user, resolve `"$user"`,
and `DROP TABLE ... CASCADE` every `pg_tables` row whose schema is in
the resolved set (the ledger's own row included, via `ledgerSchema`).
Returns the new state and the dropped tables in listing order. -/
def dropAllTables (db : DbState) : DbState × List (String × String) :=
  let schemas := resolveSchemas db.searchPath db.user
  let toDrop := db.tables.filter (fun t => schemas.contains t.1)
  ({ db with
      tables := db.tables.filter (fun t => !schemas.contains t.1),
      ledger := if schemas.contains db.ledgerSchema then none else db.ledger },
    toDrop)

/-- The observable outcome of one `resetDatabase` call. -/
structure ResetOutcome where
  ok : Bool
  db : DbState
  /-- tables dropped (each with `CASCADE`), in `pg_tables` order. -/
  droppedCascade : List (String × String)
  /-- the inner `applyMigrations` outcome, `none` if it was never called. -/
  applied : Option ApplyOutcome
  /-- `true` iff `console.log("Aborted")` ran. -/
  abortedPrompt : Bool
deriving Repr, DecidableEq

/-- `resetDatabase(sql, baseDir, force)` (src/lib/index.js lines
104-157): unless forced, ask for confirmation and return `false` with
"Aborted" if declined; otherwise drop all tables in one transaction and
delegate to `applyMigrations`, returning its result. -/
def resetDatabase (hash : String → String) (execOk : String → Bool)
    (fs : FileSys) (baseDir : String) (force confirmAnswer : Bool)
    (db : DbState) : ResetOutcome :=
  if !force && !confirmAnswer then
    ⟨false, db, [], none, true⟩
  else
    let dropped := dropAllTables db
    let out := applyMigrations hash execOk fs baseDir dropped.1
    ⟨out.ok, out.db, dropped.2, some out, false⟩

/-! ## generateMigration -/

/-- The decimal digit character for `n % 10`. -/
def digitChar10 (n : Nat) : Char := Char.ofNat (48 + n % 10)

/-- A four-digit decimal field of `toISOString` (the year). -/
def pad4 (n : Nat) : String :=
  String.mk [digitChar10 (n / 1000), digitChar10 (n / 100), digitChar10 (n / 10), digitChar10 n]

/-- A two-digit decimal field of `toISOString`. -/
def pad2 (n : Nat) : String := String.mk [digitChar10 (n / 10), digitChar10 n]

/-- A three-digit decimal field of `toISOString` (the milliseconds). -/
def pad3 (n : Nat) : String :=
  String.mk [digitChar10 (n / 100), digitChar10 (n / 10), digitChar10 n]

/-- `new Date().toISOString().replace(/\D/g, "")` for a date broken into
its components: `YYYY-MM-DDTHH:mm:ss.sssZ` with every non-digit removed,
i.e. the 17 digits `YYYYMMDDHHmmsssss`. -/
def isoDigits (y mo d h mi s ms : Nat) : String :=
  pad4 y ++ pad2 mo ++ pad2 d ++ pad2 h ++ pad2 mi ++ pad2 s ++ pad3 ms

/-- `... .slice(0, 14)` (src/lib/index.js line 18): the 14-digit
timestamp `YYYYMMDDHHmmss`. -/
def timestamp14 (y mo d h mi s ms : Nat) : String :=
  String.mk ((isoDigits y mo d h mi s ms).toList.take 14)

/-- The complement of the regex `[^ a-z\d]` (src/lib/index.js line 23):
characters kept by the first `replace`. -/
def keepChar (c : Char) : Bool :=
  c == ' ' || (decide (97 ≤ c.toNat) && decide (c.toNat ≤ 122))
    || (decide (48 ≤ c.toNat) && decide (c.toNat ≤ 57))

/-- `name.toLowerCase().replace(/[^ a-z\d]/g, "").replace(/\s/g, "_")`
(src/lib/index.js lines 21-24). -/
def codeSanitize (name : String) : String :=
  String.mk (((name.toList.map Char.toLower).filter keepChar).map
    (fun c => if jsWhitespace c then '_' else c))

/-- Modelled from the claim's words: the name lowercased, every character
other than lowercase letters, digits and spaces removed, and each
remaining space replaced by an underscore.  For comparison with
`codeSanitize`. -/
def claimSanitize (name : String) : String :=
  String.mk (((name.toList.map Char.toLower).filter keepChar).map
    (fun c => if c == ' ' then '_' else c))

/-- The name of the file created by `generateMigration`
(src/lib/index.js lines 13-36): `<timestamp>_<sanitized name>.sql`. -/
def generateFileName (y mo d h mi s ms : Nat) (name : String) : String :=
  timestamp14 y mo d h mi s ms ++ "_" ++ codeSanitize name ++ ".sql"

/-! ## Concrete fixtures (used by witnesses and counterexamples) -/

/-- A concrete injective stand-in for the SHA-256 digest. -/
def exHash : String → String := fun s => "sha256:" ++ s

/-- A catalog directory whose listing returns the two scripts *out of*
lexical order, plus a non-SQL file. -/
def exFs : FileSys where
  listing := fun d =>
    if d = "migrations" then
      some ["20230102000000_b.sql", "20230101000000_a.sql", "README.md"]
    else none
  content := fun p =>
    if p = "migrations/20230102000000_b.sql" then some "CREATE TABLE b(x int);"
    else if p = "migrations/20230101000000_a.sql" then some "CREATE TABLE a(x int);"
    else none

/-- A catalog directory containing only `20230102000000_b.sql`. -/
def exFsB : FileSys where
  listing := fun d => if d = "migrations" then some ["20230102000000_b.sql"] else none
  content := fun p =>
    if p = "migrations/20230102000000_b.sql" then some "CREATE TABLE b(x int);"
    else none

/-- An empty catalog directory. -/
def exFsEmpty : FileSys where
  listing := fun d => if d = "migrations" then some [] else none
  content := fun _ => none

/-- The catalog entry of `20230102000000_b.sql` under `exHash`. -/
def exFileB : MigrationFile :=
  ⟨"20230102000000_b.sql", "migrations/20230102000000_b.sql",
    "sha256:CREATE TABLE b(x int);"⟩

/-- A database with some user tables and no ledger table yet. -/
def exDb : DbState where
  searchPath := "\"$user\", public"
  user := "alice"
  tables := [("public", "users"), ("audit", "log_entries")]
  ledger := none
  ledgerSchema := "public"

/-- A ledger row for `a.sql` whose file was deleted from the catalog. -/
def exRowA : Migration := ⟨"20230101000000_a.sql", "sha256:CREATE TABLE a(x int);", 1⟩

/-- A ledger row for `b.sql` recorded with a stale (tampered-file) checksum. -/
def exRowB : Migration := ⟨"20230102000000_b.sql", "sha256:OLD CONTENT", 1⟩

/-- Whether an error is the integrity (`Checksum mismatch ...`) error. -/
def isChecksumMismatch : ApplyError → Bool
  | .checksumMismatch _ => true
  | _ => false

/-- The catalog entry of `20230101000000_a.sql` under `exHash`. -/
def exFileA : MigrationFile :=
  ⟨"20230101000000_a.sql", "migrations/20230101000000_a.sql",
    "sha256:CREATE TABLE a(x int);"⟩

/-- An execution model in which the script of `a.sql` fails. -/
def exExecFailA : String → Bool := fun p => !(p == "migrations/20230101000000_a.sql")

/-- A database whose ledger holds the deleted-file row `a` and the
tampered-file row `b`. -/
def exDbBoth : DbState := { exDb with ledger := some [exRowA, exRowB] }

/-- A database whose ledger holds only the tampered-file row `b`. -/
def exDbTampered : DbState := { exDb with ledger := some [exRowB] }

/-- A database whose ledger holds only row `a`, whose file is gone from
the catalog. -/
def exDbDeleted : DbState := { exDb with ledger := some [exRowA] }

/-! ## Order lemmas -/

theorem charListLE_total : ∀ as bs, charListLE as bs = true ∨ charListLE bs as = true
  | [], _ => Or.inl rfl
  | _ :: _, [] => Or.inr rfl
  | a :: as, b :: bs => by
    by_cases h1 : a.toNat < b.toNat
    · left; simp [charListLE, h1]
    · by_cases h2 : b.toNat < a.toNat
      · right; simp [charListLE, h2]
      · rcases charListLE_total as bs with h | h
        · left; simp [charListLE, h1, h2, h]
        · right; simp [charListLE, h1, h2, h]

theorem charListLE_trans :
    ∀ as bs cs, charListLE as bs = true → charListLE bs cs = true → charListLE as cs = true
  | [], _, _ => fun _ _ => rfl
  | _ :: _, [], _ => by intro h _; simp [charListLE] at h
  | _ :: _, _ :: _, [] => by intro _ h; simp [charListLE] at h
  | a :: as, b :: bs, c :: cs => by
    intro h1 h2
    simp only [charListLE] at h1 h2 ⊢
    by_cases hab : a.toNat < b.toNat <;> by_cases hba : b.toNat < a.toNat <;>
        by_cases hbc : b.toNat < c.toNat <;> by_cases hcb : c.toNat < b.toNat <;>
        by_cases hac : a.toNat < c.toNat <;> by_cases hca : c.toNat < a.toNat <;>
        simp [hab, hba, hbc, hcb, hac, hca] at h1 h2 ⊢ <;>
        try omega
    exact charListLE_trans as bs cs h1 h2


instance : IsTotal Migration migR :=
  ⟨by
    intro a b
    rcases Nat.lt_trichotomy a.round b.round with h | h | h
    · exact Or.inl (Or.inl h)
    · rcases charListLE_total a.name.toList b.name.toList with hs | hs
      · exact Or.inl (Or.inr ⟨h, hs⟩)
      · exact Or.inr (Or.inr ⟨h.symm, hs⟩)
    · exact Or.inr (Or.inl h)⟩

instance : IsTrans Migration migR :=
  ⟨by
    intro a b c hab hbc
    rcases hab with h1 | ⟨h1, s1⟩ <;> rcases hbc with h2 | ⟨h2, s2⟩
    · exact Or.inl (h1.trans h2)
    · exact Or.inl (h2 ▸ h1)
    · exact Or.inl (h1 ▸ h2)
    · exact Or.inr ⟨h1.trans h2, charListLE_trans _ _ _ s1 s2⟩⟩

theorem sortMigrations_perm (l : List Migration) : (sortMigrations l).Perm l :=
  List.perm_insertionSort migR l

theorem sortMigrations_sorted (l : List Migration) : List.Sorted migR (sortMigrations l) :=
  List.sorted_insertionSort migR l

theorem mem_sortMigrations {m : Migration} {l : List Migration} :
    m ∈ sortMigrations l ↔ m ∈ l :=
  (sortMigrations_perm l).mem_iff

theorem le_maxRound_of_mem {m : Migration} : ∀ {l : List Migration}, m ∈ l → m.round ≤ maxRound l
  | x :: rest, h => by
    rcases List.mem_cons.mp h with h | h
    · subst h; simp [maxRound]
    · have := le_maxRound_of_mem h
      simp only [maxRound]
      omega

theorem maxRound_perm : ∀ {l₁ l₂ : List Migration}, l₁.Perm l₂ → maxRound l₁ = maxRound l₂ := by
  intro l₁ l₂ h
  induction h with
  | nil => rfl
  | cons x _ ih => simp [maxRound, ih]
  | swap x y l => simp only [maxRound]; omega
  | trans _ _ ih1 ih2 => exact ih1.trans ih2

theorem lastRound_eq_maxRound : ∀ L : List Migration, List.Sorted migR L → lastRound L = maxRound L
  | [], _ => rfl
  | [m], _ => by simp [lastRound, maxRound]
  | x :: y :: t, h => by
    have hx : migR x y := List.rel_of_sorted_cons h y (by simp)
    have ih := lastRound_eq_maxRound (y :: t) h.of_cons
    have hxy : x.round ≤ y.round := by rcases hx with h' | ⟨h', _⟩ <;> omega
    have hy : y.round ≤ maxRound (y :: t) := le_maxRound_of_mem (by simp)
    simp only [lastRound, maxRound] at *
    omega

theorem lastRound_sortMigrations (l : List Migration) :
    lastRound (sortMigrations l) = maxRound l :=
  (lastRound_eq_maxRound _ (sortMigrations_sorted l)).trans (maxRound_perm (sortMigrations_perm l))

/-! ## Lookup and checksum-check lemmas -/

theorem jsLookup_mem {files : List MigrationFile} {n : String} {f : MigrationFile}
    (h : jsLookup files n = some f) : f ∈ files ∧ f.name = n := by
  have h1 := List.find?_some h
  have h2 := List.mem_of_find?_eq_some h
  exact ⟨List.mem_reverse.mp h2, by simpa using h1⟩

theorem jsLookup_eq_none_iff {files : List MigrationFile} {n : String} :
    jsLookup files n = none ↔ ∀ f ∈ files, f.name ≠ n := by
  unfold jsLookup
  rw [List.find?_eq_none]
  constructor
  · intro h f hf
    have := h f (List.mem_reverse.mpr hf)
    simpa using this
  · intro h f hf
    have := h f (List.mem_reverse.mp hf)
    simpa using this

theorem jsLookup_isSome_of_mem {files : List MigrationFile} {f : MigrationFile}
    (hf : f ∈ files) : jsLookup files f.name ≠ none := by
  intro h
  exact (jsLookup_eq_none_iff.mp h f hf) rfl

theorem checksumCheck_ok_iff {files : List MigrationFile} :
    ∀ {L : List Migration}, checksumCheck files L = .ok () ↔
      ∀ m ∈ L, ∃ f, jsLookup files m.name = some f ∧ m.checksum = f.checksum := by
  intro L
  induction L with
  | nil => simp [checksumCheck]
  | cons m rest ih =>
    simp only [checksumCheck]
    cases h : jsLookup files m.name with
    | none =>
      simp only [List.mem_cons]
      constructor
      · intro hc; cases hc
      · intro hc
        rcases hc m (Or.inl rfl) with ⟨f, hf, _⟩
        rw [h] at hf; cases hf
    | some f =>
      by_cases hck : m.checksum = f.checksum
      · simp only [hck, ne_eq, not_true_eq_false, if_false, ih, List.mem_cons]
        constructor
        · intro hall m' hm'
          rcases hm' with hm' | hm'
          · exact ⟨f, hm' ▸ h, hm' ▸ hck⟩
          · exact hall m' hm'
        · intro hall m' hm'
          exact hall m' (Or.inr hm')
      · simp only [hck, ne_eq, not_false_eq_true, if_true]
        constructor
        · intro hc; cases hc
        · intro hc
          rcases hc m (List.mem_cons_self m rest) with ⟨f', hf', hck'⟩
          rw [h] at hf'
          cases hf'
          exact absurd hck' hck

theorem except_unit_error {r : Except ApplyError Unit} (h : r ≠ .ok ()) :
    ∃ e, r = .error e := by
  cases r with
  | error e => exact ⟨e, rfl⟩
  | ok u => cases u; exact absurd rfl h

theorem checksumCheck_error_name {files : List MigrationFile} :
    ∀ {L : List Migration} {e : ApplyError},
      (∀ m ∈ L, jsLookup files m.name ≠ none) →
      checksumCheck files L = .error e →
      ∃ m ∈ L, ∃ f, jsLookup files m.name = some f ∧ m.checksum ≠ f.checksum ∧
        e = .checksumMismatch m.name := by
  intro L
  induction L with
  | nil => intro e _ h; simp [checksumCheck] at h
  | cons m rest ih =>
    intro e hall h
    simp only [checksumCheck] at h
    cases hl : jsLookup files m.name with
    | none => exact absurd hl (hall m (List.mem_cons_self m rest))
    | some f =>
      rw [hl] at h
      by_cases hck : m.checksum = f.checksum
      · simp only [hck, ne_eq, not_true_eq_false, if_false] at h
        rcases ih (fun m' hm' => hall m' (List.mem_cons_of_mem m hm')) h with
          ⟨m', hm', f', hf', hck', he⟩
        exact ⟨m', List.mem_cons_of_mem m hm', f', hf', hck', he⟩
      · simp only [hck, ne_eq, not_false_eq_true, if_true, Except.error.injEq] at h
        exact ⟨m, List.mem_cons_self m rest, f, hl, hck, h.symm⟩

theorem checksumCheck_missing_name {files : List MigrationFile} :
    ∀ {L : List Migration},
      (∀ m ∈ L, ∀ f, jsLookup files m.name = some f → m.checksum = f.checksum) →
      (∃ m ∈ L, jsLookup files m.name = none) →
      ∃ m ∈ L, jsLookup files m.name = none ∧
        checksumCheck files L = .error (.typeError m.name) := by
  intro L
  induction L with
  | nil => rintro _ ⟨m, hm, _⟩; cases hm
  | cons m rest ih =>
    rintro hmatch ⟨m', hm', hnone⟩
    simp only [checksumCheck]
    cases hl : jsLookup files m.name with
    | none => exact ⟨m, List.mem_cons_self m rest, hl, rfl⟩
    | some f =>
      have hck : m.checksum = f.checksum := hmatch m (List.mem_cons_self m rest) f hl
      simp only [hck, ne_eq, not_true_eq_false, if_false]
      have hm'rest : m' ∈ rest := by
        rcases List.mem_cons.mp hm' with h | h
        · subst h; rw [hl] at hnone; cases hnone
        · exact h
      rcases ih (fun a ha => hmatch a (List.mem_cons_of_mem m ha)) ⟨m', hm'rest, hnone⟩ with
        ⟨a, ha, hanone, hres⟩
      exact ⟨a, List.mem_cons_of_mem m ha, hanone, hres⟩

/-! ## Pending-loop and catalog lemmas -/

theorem runPending_ok {execOk : String → Bool} {round : Nat} :
    ∀ {pend : List MigrationFile} {db db2 : DbState} {L : List Migration}
      {log log2 : List String},
      db.ledger = some L →
      runPending execOk round pend db log = .ok (db2, log2) →
      db2 = { db with ledger := some (L ++ pend.map (mkEntry round)) } ∧
        log2 = log ++ pend.map (·.path) := by
  intro pend
  induction pend with
  | nil =>
    intro db db2 L log log2 hL h
    simp only [runPending, Except.ok.injEq, Prod.mk.injEq] at h
    rcases h with ⟨h1, h2⟩
    subst h1; subst h2
    refine ⟨?_, by simp⟩
    cases db
    simp_all
  | cons f rest ih =>
    intro db db2 L log log2 hL h
    simp only [runPending] at h
    by_cases he : execOk f.path
    · rw [if_pos he] at h
      have hL' : ({ db with ledger := some (db.ledger.getD [] ++ [mkEntry round f]) } :
          DbState).ledger = some (L ++ [mkEntry round f]) := by
        simp [hL]
      rcases ih hL' h with ⟨h1, h2⟩
      constructor
      · rw [h1]
        cases db
        simp_all
      · rw [h2]; simp
    · rw [if_neg he] at h
      cases h

theorem runPending_error {execOk : String → Bool} {round : Nat} {f : MigrationFile}
    (hfail : execOk f.path = false) :
    ∀ {p1 : List MigrationFile} {p2 : List MigrationFile} {db : DbState}
      {log : List String},
      (∀ g ∈ p1, execOk g.path = true) →
      runPending execOk round (p1 ++ f :: p2) db log =
        .error (.execFail f.path, log ++ p1.map (·.path)) := by
  intro p1
  induction p1 with
  | nil =>
    intro p2 db log _
    simp [runPending, hfail]
  | cons g rest ih =>
    intro p2 db log hok
    have hg : execOk g.path = true := hok g (List.mem_cons_self g rest)
    simp only [List.cons_append, runPending, hg, if_true, List.append_eq]
    rw [ih (fun a ha => hok a (List.mem_cons_of_mem g ha))]
    simp

theorem getMigrationFilesFrom_shape {hash : String → String} {fs : FileSys} {d : String} :
    ∀ {l : List String} {files : List MigrationFile},
      getMigrationFilesFrom hash fs d l = .ok files →
      files.map (·.name) = l.filter (fun f => strEndsWith f ".sql") ∧
        ∀ f ∈ files, f.path = pathJoin d f.name ∧
          ∃ c, fs.content (pathJoin d f.name) = some c ∧ f.checksum = hash c := by
  intro l
  induction l with
  | nil =>
    intro files h
    simp only [getMigrationFilesFrom, Except.ok.injEq] at h
    subst h
    simp
  | cons f rest ih =>
    intro files h
    simp only [getMigrationFilesFrom] at h
    by_cases hsql : strEndsWith f ".sql"
    · rw [if_pos hsql] at h
      cases hc : fs.content (pathJoin d f) with
      | none => rw [hc] at h; cases h
      | some c =>
        rw [hc] at h
        cases hrest : getMigrationFilesFrom hash fs d rest with
        | error e => rw [hrest] at h; cases h
        | ok ms =>
          rw [hrest] at h
          simp only [Except.ok.injEq] at h
          subst h
          rcases ih hrest with ⟨h1, h2⟩
          refine ⟨by simp [hsql, h1], ?_⟩
          intro g hg
          rcases List.mem_cons.mp hg with hg | hg
          · subst hg
            exact ⟨rfl, c, hc, rfl⟩
          · exact h2 g hg
    · rw [if_neg hsql] at h
      rcases ih h with ⟨h1, h2⟩
      refine ⟨by simp [hsql, h1], h2⟩

/-! ## Transaction characterizations -/

theorem ensureLedger_ledger (db : DbState) :
    (ensureLedger db).ledger = some (db.ledger.getD []) := by
  unfold ensureLedger
  cases h : db.ledger <;> simp [h]

theorem ensureLedger_tables (db : DbState) : (ensureLedger db).tables = db.tables := by
  unfold ensureLedger
  cases h : db.ledger <;> simp [h]

theorem applyTxn_of_check_error {execOk : String → Bool} {files : List MigrationFile}
    {db : DbState} {e : ApplyError}
    (h : checksumCheck files (sortMigrations (db.ledger.getD [])) = .error e) :
    applyTxn execOk files db = .error (e, []) := by
  simp only [applyTxn, ensureLedger_ledger, Option.getD_some, h]

theorem applyTxn_of_run_error {execOk : String → Bool} {files : List MigrationFile}
    {db : DbState} {e : ApplyError} {log : List String}
    (hc : checksumCheck files (sortMigrations (db.ledger.getD [])) = .ok ())
    (hr : runPending execOk (lastRound (sortMigrations (db.ledger.getD [])) + 1)
        (pendingOf files (sortMigrations (db.ledger.getD []))) (ensureLedger db) [] =
        .error (e, log)) :
    applyTxn execOk files db = .error (e, log) := by
  simp only [applyTxn, ensureLedger_ledger, Option.getD_some, hc, hr]

theorem applyTxn_of_run_ok {execOk : String → Bool} {files : List MigrationFile}
    {db db2 : DbState} {log : List String}
    (hc : checksumCheck files (sortMigrations (db.ledger.getD [])) = .ok ())
    (hr : runPending execOk (lastRound (sortMigrations (db.ledger.getD [])) + 1)
        (pendingOf files (sortMigrations (db.ledger.getD []))) (ensureLedger db) [] =
        .ok (db2, log)) :
    applyTxn execOk files db =
      .ok ((pendingOf files (sortMigrations (db.ledger.getD []))).length, db2, log) := by
  simp only [applyTxn, ensureLedger_ledger, Option.getD_some, hc, hr]

theorem applyTxn_ok_elim {execOk : String → Bool} {files : List MigrationFile}
    {db db2 : DbState} {n : Nat} {log : List String}
    (h : applyTxn execOk files db = .ok (n, db2, log)) :
    n = (pendingOf files (sortMigrations (db.ledger.getD []))).length ∧
      checksumCheck files (sortMigrations (db.ledger.getD [])) = .ok () ∧
      runPending execOk (lastRound (sortMigrations (db.ledger.getD [])) + 1)
        (pendingOf files (sortMigrations (db.ledger.getD []))) (ensureLedger db) [] =
        .ok (db2, log) := by
  cases hc : checksumCheck files (sortMigrations (db.ledger.getD [])) with
  | error e =>
    rw [applyTxn_of_check_error hc] at h
    cases h
  | ok u =>
    cases u
    cases hr : runPending execOk (lastRound (sortMigrations (db.ledger.getD [])) + 1)
        (pendingOf files (sortMigrations (db.ledger.getD []))) (ensureLedger db) [] with
    | error el =>
      obtain ⟨e, lg⟩ := el
      rw [applyTxn_of_run_error hc hr] at h
      cases h
    | ok p =>
      obtain ⟨db2', lg⟩ := p
      rw [applyTxn_of_run_ok hc hr] at h
      simp only [Except.ok.injEq, Prod.mk.injEq] at h
      obtain ⟨hn, hdb, hlog⟩ := h
      subst hn; subst hdb; subst hlog
      exact ⟨rfl, rfl, rfl⟩

theorem applyMigrations_of_files_error {hash : String → String} {execOk : String → Bool}
    {fs : FileSys} {baseDir : String} {db : DbState} {e : ApplyError}
    (hfiles : getMigrationFiles hash fs baseDir = .error e) :
    applyMigrations hash execOk fs baseDir db = ⟨false, db, none, some e, []⟩ := by
  unfold applyMigrations
  rw [hfiles]

theorem applyMigrations_of_txn_error {hash : String → String} {execOk : String → Bool}
    {fs : FileSys} {baseDir : String} {db : DbState} {files : List MigrationFile}
    {e : ApplyError} {log : List String}
    (hfiles : getMigrationFiles hash fs baseDir = .ok files)
    (htxn : applyTxn execOk files db = .error (e, log)) :
    applyMigrations hash execOk fs baseDir db = ⟨false, db, none, some e, log⟩ := by
  unfold applyMigrations
  rw [hfiles]
  dsimp only
  rw [htxn]

theorem applyMigrations_of_txn_ok {hash : String → String} {execOk : String → Bool}
    {fs : FileSys} {baseDir : String} {db db2 : DbState} {files : List MigrationFile}
    {n : Nat} {log : List String}
    (hfiles : getMigrationFiles hash fs baseDir = .ok files)
    (htxn : applyTxn execOk files db = .ok (n, db2, log)) :
    applyMigrations hash execOk fs baseDir db = ⟨true, db2, some n, none, log⟩ := by
  unfold applyMigrations
  rw [hfiles]
  dsimp only
  rw [htxn]

theorem applyMigrations_ok_elim {hash : String → String} {execOk : String → Bool}
    {fs : FileSys} {baseDir : String} {db : DbState}
    (hok : (applyMigrations hash execOk fs baseDir db).ok = true) :
    ∃ files n db2 log,
      getMigrationFiles hash fs baseDir = .ok files ∧
      applyTxn execOk files db = .ok (n, db2, log) ∧
      applyMigrations hash execOk fs baseDir db = ⟨true, db2, some n, none, log⟩ := by
  cases hfiles : getMigrationFiles hash fs baseDir with
  | error e =>
    rw [applyMigrations_of_files_error hfiles] at hok
    cases hok
  | ok files =>
    cases htxn : applyTxn execOk files db with
    | error el =>
      obtain ⟨e, log⟩ := el
      rw [applyMigrations_of_txn_error hfiles htxn] at hok
      cases hok
    | ok tr =>
      obtain ⟨n, db2, log⟩ := tr
      exact ⟨files, n, db2, log, rfl, htxn, applyMigrations_of_txn_ok hfiles htxn⟩

theorem applyMigrations_not_ok_elim {hash : String → String} {execOk : String → Bool}
    {fs : FileSys} {baseDir : String} {db : DbState}
    (hok : (applyMigrations hash execOk fs baseDir db).ok = false) :
    (applyMigrations hash execOk fs baseDir db).db = db ∧
      (applyMigrations hash execOk fs baseDir db).logged = none ∧
      ∃ e, (applyMigrations hash execOk fs baseDir db).errMsg = some e := by
  cases hfiles : getMigrationFiles hash fs baseDir with
  | error e =>
    rw [applyMigrations_of_files_error hfiles]
    exact ⟨rfl, rfl, e, rfl⟩
  | ok files =>
    cases htxn : applyTxn execOk files db with
    | error el =>
      obtain ⟨e, log⟩ := el
      rw [applyMigrations_of_txn_error hfiles htxn]
      exact ⟨rfl, rfl, e, rfl⟩
    | ok tr =>
      obtain ⟨n, db2, log⟩ := tr
      rw [applyMigrations_of_txn_ok hfiles htxn] at hok
      cases hok

/-! ## C8 — reset declined at the prompt -/

/-- C8: when `resetDatabase` is invoked without `force` and the
confirmation prompt is declined, it returns `false` after printing
"Aborted": no table is dropped, `applyMigrations` is never invoked, and
the database is exactly the input state. -/
theorem reset_declined_aborts (hash : String → String) (execOk : String → Bool)
    (fs : FileSys) (baseDir : String) (db : DbState) :
    resetDatabase hash execOk fs baseDir false false db =
      ⟨false, db, [], none, true⟩ :=
  rfl

/-! ## C5 — return value of apply -/

/-- C5 counterexample: an apply call that records 0 migrations and one
that records 2 both *return* the boolean `true` — the count (0 resp. 2)
is only printed via `console.log` — so a successful `applyMigrations`
call does not return the count of migrations applied, contradicting the
claim's "returns the count of migrations applied in that batch". -/
theorem apply_return_counterexample :
    (applyMigrations exHash (fun _ => true) exFsEmpty "migrations" exDb).ok = true ∧
    (applyMigrations exHash (fun _ => true) exFsEmpty "migrations" exDb).logged = some 0 ∧
    (applyMigrations exHash (fun _ => true) exFs "migrations" exDb).ok = true ∧
    (applyMigrations exHash (fun _ => true) exFs "migrations" exDb).logged = some 2 ∧
    (applyMigrations exHash (fun _ => true) exFsEmpty "migrations" exDb).ok =
      (applyMigrations exHash (fun _ => true) exFs "migrations" exDb).ok := by
  decide

/-- C5 (amended): a successful `applyMigrations` call returns the boolean
`true` and *prints* the count of migrations applied in that batch (the
number of ledger rows appended); a failed call returns `false`, prints an
error, and leaves the database unchanged. -/
theorem apply_return_contract (hash : String → String) (execOk : String → Bool)
    (fs : FileSys) (baseDir : String) (db : DbState) :
    ((applyMigrations hash execOk fs baseDir db).ok = true →
      ∃ newRows, (applyMigrations hash execOk fs baseDir db).db.ledger =
          some (db.ledger.getD [] ++ newRows) ∧
        (applyMigrations hash execOk fs baseDir db).logged = some newRows.length) ∧
    ((applyMigrations hash execOk fs baseDir db).ok = false →
      (applyMigrations hash execOk fs baseDir db).db = db ∧
        (applyMigrations hash execOk fs baseDir db).logged = none ∧
        ∃ e, (applyMigrations hash execOk fs baseDir db).errMsg = some e) := by
  constructor
  · intro hok
    obtain ⟨files, n, db2, log, hfiles, htxn, hout⟩ := applyMigrations_ok_elim hok
    obtain ⟨hn, hc, hr⟩ := applyTxn_ok_elim htxn
    obtain ⟨hdb2, hlog⟩ := runPending_ok (ensureLedger_ledger db) hr
    refine ⟨(pendingOf files (sortMigrations (db.ledger.getD []))).map
        (mkEntry (lastRound (sortMigrations (db.ledger.getD [])) + 1)), ?_, ?_⟩
    · rw [hout]
      dsimp only
      rw [hdb2]
    · rw [hout]
      dsimp only
      rw [hn, List.length_map]
  · intro hnot
    exact applyMigrations_not_ok_elim hnot

/-- C5 witness: the amended contract evaluated on the concrete two-script
catalog: the call succeeds and prints the batch size 2. -/
theorem apply_return_contract_witness :
    (applyMigrations exHash (fun _ => true) exFs "migrations" exDb).ok = true ∧
    ∃ newRows, (applyMigrations exHash (fun _ => true) exFs "migrations" exDb).db.ledger =
        some (exDb.ledger.getD [] ++ newRows) ∧
      (applyMigrations exHash (fun _ => true) exFs "migrations" exDb).logged =
        some newRows.length :=
  ⟨by decide,
    (apply_return_contract exHash (fun _ => true) exFs "migrations" exDb).1 (by decide)⟩

/-! ## C3 — round numbering -/

/-- C3: whenever `applyMigrations` succeeds, the rows it appended to the
ledger all carry the single round number `maxRound(previous ledger) + 1`
(`1` when the ledger was empty or absent before the call), and their
count is the printed batch size. -/
theorem apply_round_assignment (hash : String → String) (execOk : String → Bool)
    (fs : FileSys) (baseDir : String) (db : DbState)
    (hok : (applyMigrations hash execOk fs baseDir db).ok = true) :
    ∃ newRows,
      (applyMigrations hash execOk fs baseDir db).db.ledger =
        some (db.ledger.getD [] ++ newRows) ∧
      (applyMigrations hash execOk fs baseDir db).logged = some newRows.length ∧
      ∀ m ∈ newRows, m.round = maxRound (db.ledger.getD []) + 1 := by
  obtain ⟨files, n, db2, log, hfiles, htxn, hout⟩ := applyMigrations_ok_elim hok
  obtain ⟨hn, hc, hr⟩ := applyTxn_ok_elim htxn
  obtain ⟨hdb2, hlog⟩ := runPending_ok (ensureLedger_ledger db) hr
  refine ⟨(pendingOf files (sortMigrations (db.ledger.getD []))).map
      (mkEntry (lastRound (sortMigrations (db.ledger.getD [])) + 1)), ?_, ?_, ?_⟩
  · rw [hout]
    dsimp only
    rw [hdb2]
  · rw [hout]
    dsimp only
    rw [hn, List.length_map]
  · intro m hm
    rw [List.mem_map] at hm
    obtain ⟨f, _, hf⟩ := hm
    rw [← hf]
    simp only [mkEntry]
    rw [lastRound_sortMigrations]

/-- C3 witness: on the empty-ledger database with two pending scripts,
both appended rows carry round `maxRound [] + 1 = 1`. -/
theorem apply_round_assignment_witness :
    (applyMigrations exHash (fun _ => true) exFs "migrations" exDb).ok = true ∧
    ∃ newRows,
      (applyMigrations exHash (fun _ => true) exFs "migrations" exDb).db.ledger =
        some (exDb.ledger.getD [] ++ newRows) ∧
      (applyMigrations exHash (fun _ => true) exFs "migrations" exDb).logged =
        some newRows.length ∧
      ∀ m ∈ newRows, m.round = maxRound (exDb.ledger.getD []) + 1 :=
  ⟨by decide, apply_round_assignment exHash (fun _ => true) exFs "migrations" exDb (by decide)⟩

/-! ## C2 — all-or-nothing batches -/

/-- C2: if the checksum check passes and some pending script `f` fails
while every script before it in the batch succeeded, the whole
`applyMigrations` call fails with that script's execution error and the
database — the ledger included — is exactly the pre-call state: zero new
ledger rows, even for the earlier scripts of the batch (which did run,
as `ranScripts` records). -/
theorem apply_execFail_rolls_back (hash : String → String) (execOk : String → Bool)
    (fs : FileSys) (baseDir : String) (db : DbState) (files : List MigrationFile)
    (p1 p2 : List MigrationFile) (f : MigrationFile)
    (hfiles : getMigrationFiles hash fs baseDir = .ok files)
    (hcheck : checksumCheck files (sortMigrations (db.ledger.getD [])) = .ok ())
    (hpend : pendingOf files (sortMigrations (db.ledger.getD [])) = p1 ++ f :: p2)
    (hok1 : ∀ g ∈ p1, execOk g.path = true)
    (hfail : execOk f.path = false) :
    applyMigrations hash execOk fs baseDir db =
      ⟨false, db, none, some (.execFail f.path), p1.map (·.path)⟩ := by
  have hr : runPending execOk (lastRound (sortMigrations (db.ledger.getD [])) + 1)
      (pendingOf files (sortMigrations (db.ledger.getD []))) (ensureLedger db) [] =
      .error (.execFail f.path, [] ++ p1.map (·.path)) := by
    rw [hpend]
    exact runPending_error hfail hok1
  rw [List.nil_append] at hr
  exact applyMigrations_of_txn_error hfiles (applyTxn_of_run_error hcheck hr)

/-- C2 witness: with `b.sql` listed (and hence run) first and `a.sql`
failing, the call returns the pre-call database (no new ledger rows)
although `b.sql` itself executed without error. -/
theorem apply_execFail_rolls_back_witness :
    getMigrationFiles exHash exFs "migrations" = .ok [exFileB, exFileA] ∧
    checksumCheck [exFileB, exFileA] (sortMigrations (exDb.ledger.getD [])) = .ok () ∧
    pendingOf [exFileB, exFileA] (sortMigrations (exDb.ledger.getD [])) =
      [exFileB] ++ exFileA :: [] ∧
    (∀ g ∈ [exFileB], exExecFailA g.path = true) ∧
    exExecFailA exFileA.path = false ∧
    applyMigrations exHash exExecFailA exFs "migrations" exDb =
      ⟨false, exDb, none, some (.execFail exFileA.path), [exFileB].map (·.path)⟩ :=
  ⟨by rfl, by rfl, by decide, by decide, by decide,
    apply_execFail_rolls_back exHash exExecFailA exFs "migrations" exDb
      [exFileB, exFileA] [exFileB] [] exFileA
      (by rfl) (by rfl) (by decide) (by decide) (by decide)⟩

/-! ## C1 — checksum integrity guard -/

/-- C1 counterexample: ledger row `b` is still in the catalog with a
differing checksum — the claim's antecedent — yet because the ledger also
holds row `a` whose file was deleted (and which sorts first), the call
fails with the undefined-lookup `TypeError` for `a`, not with a fatal
integrity (checksum-mismatch) error naming the offending migration. -/
theorem apply_integrity_error_counterexample :
    exRowB ∈ exDbBoth.ledger.getD [] ∧
    jsLookup [exFileB] exRowB.name = some exFileB ∧
    exRowB.checksum ≠ exFileB.checksum ∧
    getMigrationFiles exHash exFsB "migrations" = .ok [exFileB] ∧
    (applyMigrations exHash (fun _ => true) exFsB "migrations" exDbBoth).errMsg =
      some (.typeError "20230101000000_a.sql") ∧
    Option.map isChecksumMismatch
        (applyMigrations exHash (fun _ => true) exFsB "migrations" exDbBoth).errMsg =
      some false :=
  ⟨by decide, by decide, by decide, by rfl, by decide, by decide⟩

/-- C1 (amended): if some ledger row whose name is still in the catalog
has a checksum differing from the file's current checksum, the apply call
fails, runs no pending script, and leaves the database (ledger included)
exactly as it was; when moreover *every* ledger row's name is still in
the catalog, the failure is the fatal integrity error naming an offending
(mismatching) migration. -/
theorem apply_integrity_guard (hash : String → String) (execOk : String → Bool)
    (fs : FileSys) (baseDir : String) (db : DbState) (files : List MigrationFile)
    (hfiles : getMigrationFiles hash fs baseDir = .ok files)
    (hbad : ∃ m ∈ db.ledger.getD [], ∃ f ∈ files,
      jsLookup files m.name = some f ∧ m.checksum ≠ f.checksum) :
    (applyMigrations hash execOk fs baseDir db).ok = false ∧
    (applyMigrations hash execOk fs baseDir db).db = db ∧
    (applyMigrations hash execOk fs baseDir db).ranScripts = [] ∧
    ((∀ m ∈ db.ledger.getD [], jsLookup files m.name ≠ none) →
      ∃ m ∈ db.ledger.getD [], ∃ f ∈ files,
        jsLookup files m.name = some f ∧ m.checksum ≠ f.checksum ∧
        (applyMigrations hash execOk fs baseDir db).errMsg =
          some (.checksumMismatch m.name)) := by
  obtain ⟨m0, hm0, f0, _, hf0, hne0⟩ := hbad
  have hnotok : checksumCheck files (sortMigrations (db.ledger.getD [])) ≠ .ok () := by
    intro hok
    rcases checksumCheck_ok_iff.mp hok m0 (mem_sortMigrations.mpr hm0) with ⟨f', hf', heq⟩
    rw [hf0] at hf'
    cases hf'
    exact hne0 heq
  obtain ⟨e, he⟩ := except_unit_error hnotok
  have htxe : applyTxn execOk files db = .error (e, []) := applyTxn_of_check_error he
  have hout := applyMigrations_of_txn_error hfiles htxe
  refine ⟨by rw [hout], by rw [hout], by rw [hout], ?_⟩
  intro hall
  have hall' : ∀ m ∈ sortMigrations (db.ledger.getD []), jsLookup files m.name ≠ none :=
    fun m hm => hall m (mem_sortMigrations.mp hm)
  rcases checksumCheck_error_name hall' he with ⟨m, hm, f, hf, hne, hEe⟩
  exact ⟨m, mem_sortMigrations.mp hm, f, (jsLookup_mem hf).1, hf, hne, by rw [hout, hEe]⟩

/-- C1 witness: with the tampered row `b` as the only ledger row (so every
ledger name is still in the catalog), the call fails with
`Checksum mismatch for migration "20230102000000_b.sql"` and the database
is untouched. -/
theorem apply_integrity_guard_witness :
    (∃ m ∈ exDbTampered.ledger.getD [], ∃ f ∈ [exFileB],
      jsLookup [exFileB] m.name = some f ∧ m.checksum ≠ f.checksum) ∧
    (applyMigrations exHash (fun _ => true) exFsB "migrations" exDbTampered).ok = false ∧
    (applyMigrations exHash (fun _ => true) exFsB "migrations" exDbTampered).db =
      exDbTampered ∧
    (applyMigrations exHash (fun _ => true) exFsB "migrations" exDbTampered).ranScripts = [] ∧
    ((∀ m ∈ exDbTampered.ledger.getD [], jsLookup [exFileB] m.name ≠ none) →
      ∃ m ∈ exDbTampered.ledger.getD [], ∃ f ∈ [exFileB],
        jsLookup [exFileB] m.name = some f ∧ m.checksum ≠ f.checksum ∧
        (applyMigrations exHash (fun _ => true) exFsB "migrations" exDbTampered).errMsg =
          some (.checksumMismatch m.name)) :=
  ⟨by decide,
    apply_integrity_guard exHash (fun _ => true) exFsB "migrations" exDbTampered [exFileB]
      (by rfl) (by decide)⟩

/-! ## C6 — ledger entries for deleted catalog files -/

/-- C6 counterexample: the single ledger row references a name absent
from the catalog (and no row mismatches), so by the claim the apply call
should succeed and silently ignore it; instead the source crashes —
`migrationFilesLookup[migration.name]` is `undefined`, reading
`.checksum` throws — and the call fails with that `TypeError`. -/
theorem apply_deleted_entry_counterexample :
    getMigrationFiles exHash exFsB "migrations" = .ok [exFileB] ∧
    jsLookup [exFileB] exRowA.name = none ∧
    (applyMigrations exHash (fun _ => true) exFsB "migrations" exDbDeleted).ok = false ∧
    (applyMigrations exHash (fun _ => true) exFsB "migrations" exDbDeleted).errMsg =
      some (.typeError "20230101000000_a.sql") :=
  ⟨by rfl, by decide, by decide, by decide⟩

/-- C6 (amended): a ledger row whose migration file was deleted from the
catalog is *not* silently ignored: the undefined catalog lookup makes the
apply call fail (a `TypeError` while reading `.checksum`), applying no
pending migration and leaving the database unchanged; when every
remaining row's checksum matches, the reported error is precisely the
`TypeError` for such a deleted-file row. -/
theorem apply_deleted_entry_fails (hash : String → String) (execOk : String → Bool)
    (fs : FileSys) (baseDir : String) (db : DbState) (files : List MigrationFile)
    (hfiles : getMigrationFiles hash fs baseDir = .ok files)
    (hdel : ∃ m ∈ db.ledger.getD [], jsLookup files m.name = none) :
    (applyMigrations hash execOk fs baseDir db).ok = false ∧
    (applyMigrations hash execOk fs baseDir db).db = db ∧
    (applyMigrations hash execOk fs baseDir db).ranScripts = [] ∧
    ((∀ m ∈ db.ledger.getD [], ∀ f ∈ files,
        jsLookup files m.name = some f → m.checksum = f.checksum) →
      ∃ m ∈ db.ledger.getD [], jsLookup files m.name = none ∧
        (applyMigrations hash execOk fs baseDir db).errMsg =
          some (.typeError m.name)) := by
  obtain ⟨m0, hm0, hnone0⟩ := hdel
  have hnotok : checksumCheck files (sortMigrations (db.ledger.getD [])) ≠ .ok () := by
    intro hok
    rcases checksumCheck_ok_iff.mp hok m0 (mem_sortMigrations.mpr hm0) with ⟨f', hf', _⟩
    rw [hnone0] at hf'
    cases hf'
  obtain ⟨e, he⟩ := except_unit_error hnotok
  have htxe : applyTxn execOk files db = .error (e, []) := applyTxn_of_check_error he
  have hout := applyMigrations_of_txn_error hfiles htxe
  refine ⟨by rw [hout], by rw [hout], by rw [hout], ?_⟩
  intro hmatch
  have hmatch' : ∀ m ∈ sortMigrations (db.ledger.getD []), ∀ f,
      jsLookup files m.name = some f → m.checksum = f.checksum :=
    fun m hm f hf => hmatch m (mem_sortMigrations.mp hm) f (jsLookup_mem hf).1 hf
  rcases checksumCheck_missing_name hmatch'
      ⟨m0, mem_sortMigrations.mpr hm0, hnone0⟩ with ⟨m, hm, hmnone, hres⟩
  rw [he] at hres
  cases hres
  exact ⟨m, mem_sortMigrations.mp hm, hmnone, by rw [hout]⟩

/-- C6 witness: the deleted-file scenario through the amended theorem —
the call fails with the `TypeError` for the deleted row and the database
is unchanged. -/
theorem apply_deleted_entry_fails_witness :
    (∃ m ∈ exDbDeleted.ledger.getD [], jsLookup [exFileB] m.name = none) ∧
    (applyMigrations exHash (fun _ => true) exFsB "migrations" exDbDeleted).ok = false ∧
    (applyMigrations exHash (fun _ => true) exFsB "migrations" exDbDeleted).db =
      exDbDeleted ∧
    (applyMigrations exHash (fun _ => true) exFsB "migrations" exDbDeleted).ranScripts = [] ∧
    ((∀ m ∈ exDbDeleted.ledger.getD [], ∀ f ∈ [exFileB],
        jsLookup [exFileB] m.name = some f → m.checksum = f.checksum) →
      ∃ m ∈ exDbDeleted.ledger.getD [], jsLookup [exFileB] m.name = none ∧
        (applyMigrations exHash (fun _ => true) exFsB "migrations" exDbDeleted).errMsg =
          some (.typeError m.name)) :=
  ⟨by decide,
    apply_deleted_entry_fails exHash (fun _ => true) exFsB "migrations" exDbDeleted [exFileB]
      (by rfl) (by decide)⟩

/-! ## C4 — apply order -/

/-- C4 counterexample: the directory listing returns
`20230102000000_b.sql` before `20230101000000_a.sql`; the source applies
no sort, so the scripts execute and are recorded in exactly that listing
order — the reverse of the filename-lexical (chronological) order the
claim promises "regardless of the order in which the directory listing
returns the files". -/
theorem apply_order_counterexample :
    (applyMigrations exHash (fun _ => true) exFs "migrations" exDb).ranScripts =
      ["migrations/20230102000000_b.sql", "migrations/20230101000000_a.sql"] ∧
    (applyMigrations exHash (fun _ => true) exFs "migrations" exDb).db.ledger =
      some [⟨"20230102000000_b.sql", "sha256:CREATE TABLE b(x int);", 1⟩,
            ⟨"20230101000000_a.sql", "sha256:CREATE TABLE a(x int);", 1⟩] ∧
    ["migrations/20230102000000_b.sql", "migrations/20230101000000_a.sql"] ≠
      ["migrations/20230101000000_a.sql", "migrations/20230102000000_b.sql"] := by
  decide

/-- C4 (amended): pending migrations execute in catalog order, and the
catalog preserves the order in which the directory listing returned the
`.sql` files (no sorting is applied); the order is chronological exactly
when the listing itself is lexically sorted. -/
theorem apply_order_follows_listing (hash : String → String) (execOk : String → Bool)
    (fs : FileSys) (baseDir : String) (db : DbState) (l : List String)
    (files : List MigrationFile)
    (hl : fs.listing baseDir = some l)
    (hfiles : getMigrationFiles hash fs baseDir = .ok files)
    (hok : (applyMigrations hash execOk fs baseDir db).ok = true) :
    files.map (·.name) = l.filter (fun f => strEndsWith f ".sql") ∧
    (applyMigrations hash execOk fs baseDir db).ranScripts =
      (pendingOf files (sortMigrations (db.ledger.getD []))).map (·.path) := by
  constructor
  · unfold getMigrationFiles at hfiles
    rw [hl] at hfiles
    exact (getMigrationFilesFrom_shape hfiles).1
  · obtain ⟨files', n, db2, log, hfiles', htxn, hout⟩ := applyMigrations_ok_elim hok
    rw [hfiles] at hfiles'
    cases hfiles'
    obtain ⟨_, _, hr⟩ := applyTxn_ok_elim htxn
    obtain ⟨_, hlog⟩ := runPending_ok (ensureLedger_ledger db) hr
    rw [hout]
    dsimp only
    rw [hlog, List.nil_append]

/-- C4 witness: the amended order statement evaluated on the concrete
out-of-order listing. -/
theorem apply_order_follows_listing_witness :
    exFs.listing "migrations" =
      some ["20230102000000_b.sql", "20230101000000_a.sql", "README.md"] ∧
    getMigrationFiles exHash exFs "migrations" = .ok [exFileB, exFileA] ∧
    (applyMigrations exHash (fun _ => true) exFs "migrations" exDb).ok = true ∧
    [exFileB, exFileA].map (·.name) =
      ["20230102000000_b.sql", "20230101000000_a.sql", "README.md"].filter
        (fun f => strEndsWith f ".sql") ∧
    (applyMigrations exHash (fun _ => true) exFs "migrations" exDb).ranScripts =
      (pendingOf [exFileB, exFileA] (sortMigrations (exDb.ledger.getD []))).map (·.path) :=
  ⟨by decide, by rfl, by decide,
    (apply_order_follows_listing exHash (fun _ => true) exFs "migrations" exDb
      ["20230102000000_b.sql", "20230101000000_a.sql", "README.md"] [exFileB, exFileA]
      (by decide) (by rfl) (by decide)).1,
    (apply_order_follows_listing exHash (fun _ => true) exFs "migrations" exDb
      ["20230102000000_b.sql", "20230101000000_a.sql", "README.md"] [exFileB, exFileA]
      (by decide) (by rfl) (by decide)).2⟩

/-! ## C9 — catalog read contract -/

/-- C9 counterexample: with the relative directory "migrations" and
working directory "/work", the source lists the path exactly as given
(returning an entry whose `path` is still relative), while the
resolve-first read the claim describes would consult "/work/migrations"
— which errors here.  The catalog read therefore does not resolve the
directory to an absolute path before listing it. -/
theorem catalog_read_no_resolve_counterexample :
    getMigrationFiles exHash exFsB "migrations" = .ok [exFileB] ∧
    strStartsWith exFileB.path "/" = false ∧
    pathResolve "/work" "migrations" = "/work/migrations" ∧
    getMigrationFilesResolved exHash exFsB "/work" "migrations" =
      .error (.readdirFail "/work/migrations") ∧
    ApplyError.readdirFail "/work/migrations" ≠ .readdirFail "migrations" :=
  ⟨by rfl, by decide, by decide, by rfl, by decide⟩

/-- C9 (amended): the catalog read lists the directory path exactly as
given (no absolute-path resolution — only migration generation resolves);
if the directory cannot be listed the call fails with that error rather
than reporting zero migrations, and otherwise it returns one entry per
`.sql` file, in listing order, with the path joined onto the given
directory and the checksum of the file's content. -/
theorem getMigrationFiles_contract (hash : String → String) (fs : FileSys)
    (baseDir : String) (l : List String) (files : List MigrationFile) :
    (fs.listing baseDir = none →
      getMigrationFiles hash fs baseDir = .error (.readdirFail baseDir)) ∧
    (fs.listing baseDir = some l → getMigrationFiles hash fs baseDir = .ok files →
      files.map (·.name) = l.filter (fun f => strEndsWith f ".sql") ∧
      ∀ f ∈ files, f.path = pathJoin baseDir f.name ∧
        ∃ c, fs.content (pathJoin baseDir f.name) = some c ∧ f.checksum = hash c) := by
  constructor
  · intro h
    unfold getMigrationFiles
    rw [h]
  · intro hl hok
    unfold getMigrationFiles at hok
    rw [hl] at hok
    exact getMigrationFilesFrom_shape hok

/-- C9 witness: both halves of the contract at concrete inputs — an
unlistable directory fails with the listing error, and the two-script
catalog yields exactly its `.sql` entries in listing order. -/
theorem getMigrationFiles_contract_witness :
    (exFs.listing "elsewhere" = none ∧
      getMigrationFiles exHash exFs "elsewhere" = .error (.readdirFail "elsewhere")) ∧
    (exFs.listing "migrations" =
        some ["20230102000000_b.sql", "20230101000000_a.sql", "README.md"] ∧
      getMigrationFiles exHash exFs "migrations" = .ok [exFileB, exFileA] ∧
      [exFileB, exFileA].map (·.name) =
        ["20230102000000_b.sql", "20230101000000_a.sql", "README.md"].filter
          (fun f => strEndsWith f ".sql") ∧
      ∀ f ∈ [exFileB, exFileA], f.path = pathJoin "migrations" f.name ∧
        ∃ c, exFs.content (pathJoin "migrations" f.name) = some c ∧
          f.checksum = exHash c) :=
  ⟨⟨by decide,
      (getMigrationFiles_contract exHash exFs "elsewhere" [] []).1 (by decide)⟩,
    ⟨by decide, by rfl,
      (getMigrationFiles_contract exHash exFs "migrations"
        ["20230102000000_b.sql", "20230101000000_a.sql", "README.md"]
        [exFileB, exFileA]).2 (by decide) (by rfl)⟩⟩

/-! ## C7 — reset drops and replays -/

theorem pendingOf_nil (files : List MigrationFile) : pendingOf files [] = files := by
  simp [pendingOf]

theorem runPending_all_ok {execOk : String → Bool} {round : Nat} :
    ∀ {pend : List MigrationFile} {db : DbState} {L : List Migration} {log : List String},
      db.ledger = some L →
      (∀ f ∈ pend, execOk f.path = true) →
      runPending execOk round pend db log =
        .ok ({ db with ledger := some (L ++ pend.map (mkEntry round)) },
          log ++ pend.map (·.path)) := by
  intro pend
  induction pend with
  | nil =>
    intro db L log hL _
    simp only [runPending, List.map_nil, List.append_nil]
    cases db
    simp_all
  | cons f rest ih =>
    intro db L log hL hall
    have hf := hall f (List.mem_cons_self f rest)
    simp only [runPending, hf, if_true]
    have hL' : ({ db with ledger := some (db.ledger.getD [] ++ [mkEntry round f]) } :
        DbState).ledger = some (L ++ [mkEntry round f]) := by
      simp [hL]
    rw [ih hL' (fun g hg => hall g (List.mem_cons_of_mem f hg))]
    cases db
    simp_all

/-- C7: when reset is forced or confirmed, every table whose schema is in
the resolved search-path set (the `"$user"` placeholder replaced by the
current database user) is dropped with cascade — the ledger's own table
included, given that it lives in one of those schemas — and the replay
then records every catalog migration, in catalog order, in the single
fresh round `1`. -/
theorem reset_drops_and_replays (hash : String → String) (execOk : String → Bool)
    (fs : FileSys) (baseDir : String) (db : DbState) (force confirmAnswer : Bool)
    (files : List MigrationFile)
    (hgo : force = true ∨ confirmAnswer = true)
    (hledger : (resolveSchemas db.searchPath db.user).contains db.ledgerSchema = true)
    (hfiles : getMigrationFiles hash fs baseDir = .ok files)
    (hexec : ∀ f ∈ files, execOk f.path = true) :
    (resetDatabase hash execOk fs baseDir force confirmAnswer db).ok = true ∧
    (resetDatabase hash execOk fs baseDir force confirmAnswer db).droppedCascade =
      db.tables.filter (fun t => (resolveSchemas db.searchPath db.user).contains t.1) ∧
    (resetDatabase hash execOk fs baseDir force confirmAnswer db).db.tables =
      db.tables.filter (fun t => !(resolveSchemas db.searchPath db.user).contains t.1) ∧
    (resetDatabase hash execOk fs baseDir force confirmAnswer db).db.ledger =
      some (files.map (mkEntry 1)) ∧
    (resetDatabase hash execOk fs baseDir force confirmAnswer db).abortedPrompt = false := by
  have hcond : (!force && !confirmAnswer) = false := by
    rcases hgo with h | h <;> simp [h]
  have hres : resetDatabase hash execOk fs baseDir force confirmAnswer db =
      ⟨(applyMigrations hash execOk fs baseDir (dropAllTables db).1).ok,
       (applyMigrations hash execOk fs baseDir (dropAllTables db).1).db,
       (dropAllTables db).2,
       some (applyMigrations hash execOk fs baseDir (dropAllTables db).1),
       false⟩ := by
    unfold resetDatabase
    rw [hcond]
    simp
  have hdb1ledger : (dropAllTables db).1.ledger = none := by
    unfold dropAllTables
    dsimp only
    rw [hledger]
    simp
  have h0 : (dropAllTables db).1.ledger.getD [] = [] := by rw [hdb1ledger]; rfl
  have hc : checksumCheck files (sortMigrations ((dropAllTables db).1.ledger.getD [])) =
      .ok () := by
    rw [h0]
    rfl
  have hL : (ensureLedger (dropAllTables db).1).ledger = some [] := by
    rw [ensureLedger_ledger, h0]
  have hr : runPending execOk
      (lastRound (sortMigrations ((dropAllTables db).1.ledger.getD [])) + 1)
      (pendingOf files (sortMigrations ((dropAllTables db).1.ledger.getD [])))
      (ensureLedger (dropAllTables db).1) [] =
      .ok ({ ensureLedger (dropAllTables db).1 with
              ledger := some ([] ++ files.map (mkEntry 1)) },
        [] ++ files.map (·.path)) := by
    rw [h0]
    have := @runPending_all_ok execOk 1 files (ensureLedger (dropAllTables db).1) [] [] hL hexec
    simpa [sortMigrations, pendingOf, lastRound] using this
  have htxn := applyTxn_of_run_ok hc hr
  have happly := applyMigrations_of_txn_ok hfiles htxn
  rw [hres, happly]
  refine ⟨rfl, by simp [dropAllTables], ?_, ?_, rfl⟩
  · show (ensureLedger (dropAllTables db).1).tables = _
    rw [ensureLedger_tables]
    simp [dropAllTables]
  · show some ([] ++ files.map (mkEntry 1)) = some (files.map (mkEntry 1))
    rw [List.nil_append]

/-- C7 witness: a forced reset of the concrete database — `search_path`
is `"$user", public` with user `alice`, so schemas `alice` and `public`
resolve; the `public` tables (ledger included) are dropped and the replay
records both catalog scripts in round 1, in catalog order. -/
theorem reset_drops_and_replays_witness :
    (true = true ∨ false = true) ∧
    (resolveSchemas exDb.searchPath exDb.user).contains exDb.ledgerSchema = true ∧
    getMigrationFiles exHash exFs "migrations" = .ok [exFileB, exFileA] ∧
    (∀ f ∈ [exFileB, exFileA], (fun _ => true : String → Bool) f.path = true) ∧
    (resetDatabase exHash (fun _ => true) exFs "migrations" true false exDb).ok = true ∧
    (resetDatabase exHash (fun _ => true) exFs "migrations" true false exDb).droppedCascade =
      exDb.tables.filter
        (fun t => (resolveSchemas exDb.searchPath exDb.user).contains t.1) ∧
    (resetDatabase exHash (fun _ => true) exFs "migrations" true false exDb).db.tables =
      exDb.tables.filter
        (fun t => !(resolveSchemas exDb.searchPath exDb.user).contains t.1) ∧
    (resetDatabase exHash (fun _ => true) exFs "migrations" true false exDb).db.ledger =
      some ([exFileB, exFileA].map (mkEntry 1)) ∧
    (resetDatabase exHash (fun _ => true) exFs "migrations" true false exDb).abortedPrompt =
      false :=
  ⟨Or.inl rfl, by decide, by rfl, by decide,
    reset_drops_and_replays exHash (fun _ => true) exFs "migrations" exDb true false
      [exFileB, exFileA] (Or.inl rfl) (by decide) (by rfl) (by decide)⟩

/-! ## C10 — generated migration file names -/

theorem digitChar10_toNat (n : Nat) : (digitChar10 n).toNat = 48 + n % 10 := by
  unfold digitChar10
  set k := n % 10 with hk
  have h : k < 10 := by omega
  interval_cases k <;> rfl

/-- The explicit 14 digit characters of the generated timestamp. -/
theorem timestamp14_toList (y mo d h mi s ms : Nat) :
    (timestamp14 y mo d h mi s ms).toList =
      [digitChar10 (y / 1000), digitChar10 (y / 100), digitChar10 (y / 10), digitChar10 y,
       digitChar10 (mo / 10), digitChar10 mo, digitChar10 (d / 10), digitChar10 d,
       digitChar10 (h / 10), digitChar10 h, digitChar10 (mi / 10), digitChar10 mi,
       digitChar10 (s / 10), digitChar10 s] := rfl

theorem jsWhitespace_false_of_alnum {c : Char} (h1 : 48 ≤ c.toNat) (h2 : c.toNat ≤ 122) :
    jsWhitespace c = false := by
  simp only [jsWhitespace, decide_eq_false_iff_not, List.mem_cons, List.not_mem_nil,
    or_false]
  omega

/-- After the `[^ a-z\d]` filter, the only whitespace character left is
the plain space, so the `\s → _` replacement coincides with a space
replacement: the code's sanitization equals the claim's description. -/
theorem codeSanitize_eq_claimSanitize (name : String) :
    codeSanitize name = claimSanitize name := by
  unfold codeSanitize claimSanitize
  congr 1
  apply List.map_congr_left
  intro c hc
  have hk := List.of_mem_filter hc
  by_cases hsp : c = ' '
  · subst hsp; rfl
  · have hne : (c == ' ') = false := by simp [hsp]
    rw [hne]
    simp only [keepChar, Bool.or_eq_true, Bool.and_eq_true, decide_eq_true_eq,
      beq_iff_eq] at hk
    rcases hk with (h | h) | h
    · exact absurd h hsp
    · rw [jsWhitespace_false_of_alnum (by omega) (by omega)]
    · rw [jsWhitespace_false_of_alnum (by omega) (by omega)]

/-- C10: for a date within `toISOString`'s printable ranges, the file
created by `generateMigration` is named `<timestamp>_<t>.sql` where the
timestamp is exactly 14 decimal digits and `t` is the name lowercased,
every character other than lowercase letters, digits and spaces removed,
and each remaining whitespace (necessarily a space) replaced by an
underscore; a name reduced to nothing yields `<timestamp>_.sql`. -/
theorem generate_filename_spec (y mo d h mi s ms : Nat) (name : String)
    (hy : y ≤ 9999) (hmo : mo ≤ 12) (hd : d ≤ 31) (hh : h ≤ 23) (hmi : mi ≤ 59)
    (hs : s ≤ 59) :
    generateFileName y mo d h mi s ms name =
      timestamp14 y mo d h mi s ms ++ "_" ++ claimSanitize name ++ ".sql" ∧
    (timestamp14 y mo d h mi s ms).toList.length = 14 ∧
    (∀ c ∈ (timestamp14 y mo d h mi s ms).toList, 48 ≤ c.toNat ∧ c.toNat ≤ 57) ∧
    (claimSanitize name = "" →
      generateFileName y mo d h mi s ms name =
        timestamp14 y mo d h mi s ms ++ "_.sql") := by
  have hmain : generateFileName y mo d h mi s ms name =
      timestamp14 y mo d h mi s ms ++ "_" ++ claimSanitize name ++ ".sql" := by
    unfold generateFileName
    rw [codeSanitize_eq_claimSanitize]
  refine ⟨hmain, by rw [timestamp14_toList]; rfl, ?_, ?_⟩
  · intro c hc
    rw [timestamp14_toList] at hc
    simp only [List.mem_cons, List.not_mem_nil, or_false] at hc
    rcases hc with h | h | h | h | h | h | h | h | h | h | h | h | h | h <;>
      · subst h
        rw [digitChar10_toNat]
        omega
  · intro hempty
    rw [hmain, hempty]
    apply String.ext
    simp [String.data_append]

/-- C10 witness: the filename law at a concrete date and two concrete
names — a mixed-case punctuated name, and a punctuation-only name whose
sanitized part is empty. -/
theorem generate_filename_spec_witness :
    (2023 ≤ 9999 ∧ 10 ≤ 12 ∧ 25 ≤ 31 ∧ 19 ≤ 23 ∧ 42 ≤ 59 ∧ 0 ≤ 59) ∧
    generateFileName 2023 10 25 19 42 0 123 "Hello, World!42" =
      timestamp14 2023 10 25 19 42 0 123 ++ "_" ++
        claimSanitize "Hello, World!42" ++ ".sql" ∧
    claimSanitize "Hello, World!42" = "hello_world42" ∧
    generateFileName 2023 10 25 19 42 0 123 "Hello, World!42" =
      "20231025194200_hello_world42.sql" ∧
    claimSanitize "+?!" = "" ∧
    generateFileName 2023 10 25 19 42 0 123 "+?!" =
      timestamp14 2023 10 25 19 42 0 123 ++ "_.sql" ∧
    generateFileName 2023 10 25 19 42 0 123 "+?!" = "20231025194200_.sql" :=
  ⟨by decide,
    (generate_filename_spec 2023 10 25 19 42 0 123 "Hello, World!42"
      (by decide) (by decide) (by decide) (by decide) (by decide) (by decide)).1,
    by decide, by decide, by decide,
    (generate_filename_spec 2023 10 25 19 42 0 123 "+?!"
      (by decide) (by decide) (by decide) (by decide) (by decide) (by decide)).2.2.2
      (by decide),
    by decide⟩
